import Mathlib

/-!
Formal model of the client-side scripts of the HealthyYou repository
(`src/assets/js/google-maps.js`: the Neighborhood Discovery widget's
place-details cache and retry fetcher, the opening-hours parser and the
star-icon helper; plus the BMI calculator script), together with proofs
of the behavioural properties documented for them.

Modelling conventions:
* JavaScript numbers are modelled as rationals (`ℚ`); `Math.round` is
  `round` (both round halves up), `Math.floor` is `Int.floor`.
* JS strings are `String`, or `List Char` where character-level
  processing (regex splitting / replacement) matters.
* Absent (`undefined`) values are `none : Option _`; a fallible numeric
  parse (`parseFloat` returning `NaN`) is `Option ℚ`.
* Each DOM-writing script is a pure function producing an output record
  describing the alert raised (if any) and the element texts written.
* The widget's mutable state (the `placeIdsToDetails` map, the in-flight
  requests and their retry counters) is passed explicitly; external
  service interactions become an event-step function on that state.
-/

/-! ## BMI calculator (`calculateBMI`) -/

/-- Output of one `calculateBMI` invocation: the alert raised (if any) and
the text written to the `result` and `result-category` elements (`none`
means the element was not written). -/
structure BMIOutput where
  alertMessage : Option String
  result : Option String
  resultCategory : Option String
deriving DecidableEq

/-- Decimal rendering of a rational with two digits after the point,
modelling `Number.prototype.toFixed(2)` on the non-negative values the BMI
formula produces. -/
def toFixed2 (q : ℚ) : String :=
  let n : ℤ := round (q * 100)
  let i := n / 100
  let f := n % 100
  toString i ++ "." ++ (if f < 10 then "0" ++ toString f else toString f)

/-- String coercion of a possibly-undefined value as performed by JS string
concatenation: appending `undefined` to a string yields the text
"undefined". -/
def jsStr : Option String → String
  | some s => s
  | none => "undefined"

/-- Model of `calculateBMI` (BMI script, source lines 465-514).  `height`
and `weight` are the `parseFloat` results of the two form fields (`none`
models `NaN`); `gender` is the raw value of the gender field.  The two
gender branches of the source are textually identical and are transcribed
as such; a gender that is neither "male" nor "female" leaves the JS
variable `category` undefined, which the final concatenation renders as
"undefined". -/
def calculateBMI (gender : String) (height weight : Option ℚ) : BMIOutput :=
  match height, weight with
  | some h, some w =>
    if h ≤ 0 ∨ w ≤ 0 then
      { alertMessage := some "Please enter valid height and weight.",
        result := none, resultCategory := none }
    else
      let heightInMeters := h / 100
      let bmi := w / (heightInMeters * heightInMeters)
      let category : Option String :=
        if gender = "male" then
          if bmi < 18.5 then some "Underweight"
          else if 18.5 ≤ bmi ∧ bmi < 24.9 then some "Normal weight"
          else if 25 ≤ bmi ∧ bmi < 29.9 then some "Overweight"
          else some "Obese"
        else if gender = "female" then
          if bmi < 18.5 then some "Underweight"
          else if 18.5 ≤ bmi ∧ bmi < 24.9 then some "Normal weight"
          else if 25 ≤ bmi ∧ bmi < 29.9 then some "Overweight"
          else some "Obese"
        else none
      { alertMessage := none,
        result := some ("Your BMI is: " ++ toFixed2 bmi),
        resultCategory := some ("BMI Category: " ++ jsStr category) }
  | _, _ =>
      { alertMessage := some "Please enter valid height and weight.",
        result := none, resultCategory := none }

/-! ## Star icons (`initArray`, `addStarIcons`) -/

/-- Initializes an array of zeros with the given size (source lines
28-34).  A non-positive size yields the empty array, since the JS `while`
loop body never runs. -/
def initArray (arraySize : ℤ) : List ℕ :=
  List.replicate arraySize.toNat 0

/-- An object carrying an optional rating and the star-icon arrays that
`addStarIcons` attaches (a place or a review; the source is duck-typed). -/
structure StarRated where
  rating : Option ℚ := none
  fullStarIcons : Option (List ℕ) := none
  halfStarIcons : Option (List ℕ) := none
  emptyStarIcons : Option (List ℕ) := none
deriving DecidableEq

/-- Model of `addStarIcons` (source lines 37-48).  `if (!obj.rating)
return;` drops both an absent rating and a rating of `0` (falsy in JS). -/
def addStarIcons (obj : StarRated) : StarRated :=
  match obj.rating with
  | none => obj
  | some r =>
    if r = 0 then obj
    else
      let starsOutOfTen : ℤ := round (2 * r)
      let fullStars : ℤ := ⌊(starsOutOfTen : ℚ) / 2⌋
      let halfStars : ℤ := if (fullStars : ℚ) ≠ (starsOutOfTen : ℚ) / 2 then 1 else 0
      let emptyStars : ℤ := 5 - fullStars - halfStars
      { obj with fullStarIcons := some (initArray fullStars),
                 halfStarIcons := some (initArray halfStars),
                 emptyStarIcons := some (initArray emptyStars) }

/-- The floor of the rational `s / 2` is integer division of `s` by 2. -/
lemma floor_half_int (s : ℤ) : ⌊(s : ℚ) / 2⌋ = s / 2 := by
  rw [(by norm_num : ((2 : ℚ)) = ((2 : ℕ) : ℚ)), Rat.floor_intCast_div_natCast]
  norm_num

/-- The half-star condition of `addStarIcons`, restated over the integers. -/
lemma half_star_cond (s : ℤ) : (((s / 2 : ℤ) : ℚ) = (s : ℚ) / 2) ↔ s / 2 * 2 = s := by
  rw [eq_div_iff (by norm_num : (2 : ℚ) ≠ 0)]
  exact ⟨fun h => by exact_mod_cast h, fun h => by exact_mod_cast h⟩

/-- Arithmetic core of the star computation: for any integer star count
`s` between 0 and 10 the three derived array lengths add up to 5 and the
half-star array has at most one element. -/
lemma starCounts_sum (s : ℤ) (h0 : 0 ≤ s) (h10 : s ≤ 10) :
    (initArray ⌊(s : ℚ) / 2⌋).length +
      (initArray (if (⌊(s : ℚ) / 2⌋ : ℚ) ≠ (s : ℚ) / 2 then 1 else 0)).length +
      (initArray (5 - ⌊(s : ℚ) / 2⌋ -
        (if (⌊(s : ℚ) / 2⌋ : ℚ) ≠ (s : ℚ) / 2 then 1 else 0))).length = 5 ∧
    ((initArray (if (⌊(s : ℚ) / 2⌋ : ℚ) ≠ (s : ℚ) / 2 then 1 else 0)).length = 0 ∨
     (initArray (if (⌊(s : ℚ) / 2⌋ : ℚ) ≠ (s : ℚ) / 2 then 1 else 0)).length = 1) := by
  simp only [floor_half_int, ne_eq, half_star_cond]
  interval_cases s <;> exact ⟨by decide, by decide⟩

/-- C9: whenever the object's rating is a truthy number `r` with
`0 < r ≤ 5`, `addStarIcons` attaches three icon arrays whose lengths add
up to exactly 5, the half-star array holding 0 or 1 entries; an object
with no rating (absent, or the falsy rating 0) is left unchanged. -/
theorem addStarIcons_spec (obj : StarRated) :
    (∀ r : ℚ, obj.rating = some r → 0 < r → r ≤ 5 →
      ∃ a b c, (addStarIcons obj).fullStarIcons = some a ∧
        (addStarIcons obj).halfStarIcons = some b ∧
        (addStarIcons obj).emptyStarIcons = some c ∧
        a.length + b.length + c.length = 5 ∧
        (b.length = 0 ∨ b.length = 1)) ∧
    ((obj.rating = none ∨ obj.rating = some 0) → addStarIcons obj = obj) := by
  constructor
  · intro r hr h0 h5
    have hs0 : 0 ≤ round (2 * r) := by
      rw [round_eq]
      exact Int.floor_nonneg.2 (by linarith)
    have hs10 : round (2 * r) ≤ 10 := by
      have : round (2 * r) < 11 := by
        rw [round_eq]
        exact Int.floor_lt.2 (by push_cast; linarith)
      omega
    simp only [addStarIcons, hr]
    rw [if_neg h0.ne']
    exact ⟨_, _, _, rfl, rfl, rfl,
      (starCounts_sum (round (2 * r)) hs0 hs10).1,
      (starCounts_sum (round (2 * r)) hs0 hs10).2⟩
  · rintro (h | h) <;> simp [addStarIcons, h]

/-- Witness for C9 at the concrete rating 3.5. -/
theorem addStarIcons_spec_witness :
    ∃ a b c,
      (addStarIcons ⟨some (7 / 2), none, none, none⟩).fullStarIcons = some a ∧
      (addStarIcons ⟨some (7 / 2), none, none, none⟩).halfStarIcons = some b ∧
      (addStarIcons ⟨some (7 / 2), none, none, none⟩).emptyStarIcons = some c ∧
      a.length + b.length + c.length = 5 ∧ (b.length = 0 ∨ b.length = 1) :=
  (addStarIcons_spec ⟨some (7 / 2), none, none, none⟩).1 (7 / 2) rfl
    (by norm_num) (by norm_num)

/-- Rendering of the concrete BMI value 22.5 with two decimals. -/
lemma toFixed2_half_45 : toFixed2 (45 / 2) = "22.50" := by
  have h1 : round ((45 / 2 : ℚ) * 100) = 2250 := by
    rw [(by norm_num : ((45 / 2 : ℚ) * 100) = ((2250 : ℤ) : ℚ)), round_intCast]
  simp only [toFixed2, h1]
  decide

/-- C6: with height 180 cm and weight 72.9 kg, `calculateBMI` writes
"Your BMI is: 22.50" (the exact BMI is 22.5) and the category
"Normal weight", for gender "male" as well as "female". -/
theorem calculateBMI_180_72_9 :
    calculateBMI "male" (some 180) (some (72.9 : ℚ)) =
      { alertMessage := none,
        result := some "Your BMI is: 22.50",
        resultCategory := some "BMI Category: Normal weight" } ∧
    calculateBMI "female" (some 180) (some (72.9 : ℚ)) =
      { alertMessage := none,
        result := some "Your BMI is: 22.50",
        resultCategory := some "BMI Category: Normal weight" } := by
  have hbmi : (72.9 : ℚ) / ((180 / 100) * (180 / 100)) = 45 / 2 := by norm_num
  constructor <;>
  · simp only [calculateBMI]
    rw [if_neg (by norm_num)]
    simp only [hbmi, toFixed2_half_45]
    norm_num
    exact ⟨rfl, rfl⟩

/-- C7: a non-numeric (`NaN`) or non-positive height or weight makes
`calculateBMI` raise the validation alert and return without writing the
result or the result-category element. -/
theorem calculateBMI_invalid (gender : String) (height weight : Option ℚ)
    (h : match height, weight with
         | some a, some b => a ≤ 0 ∨ b ≤ 0
         | _, _ => True) :
    calculateBMI gender height weight =
      { alertMessage := some "Please enter valid height and weight.",
        result := none, resultCategory := none } := by
  match height, weight with
  | none, none => rfl
  | none, some b => rfl
  | some a, none => rfl
  | some a, some b =>
    simp only [calculateBMI]
    rw [if_pos h]

/-- Witness for C7 at the claim's concrete inputs height 0, weight 70. -/
theorem calculateBMI_invalid_witness :
    calculateBMI "male" (some 0) (some 70) =
      { alertMessage := some "Please enter valid height and weight.",
        result := none, resultCategory := none } :=
  calculateBMI_invalid "male" (some 0) (some 70) (Or.inl le_rfl)

/-- C10: a computed BMI in the half-open gap [24.9, 25) satisfies none of
the first three category conditions, so `calculateBMI` writes the category
"Obese", for gender "male" as well as "female". -/
theorem calculateBMI_gap_obese (gender : String) (h w : ℚ)
    (hg : gender = "male" ∨ gender = "female") (hh : 0 < h) (hw : 0 < w)
    (h1 : 24.9 ≤ w / ((h / 100) * (h / 100)))
    (h2 : w / ((h / 100) * (h / 100)) < 25) :
    (calculateBMI gender (some h) (some w)).resultCategory =
      some "BMI Category: Obese" := by
  have h185 : (18.5 : ℚ) ≤ 24.9 := by norm_num
  simp only [calculateBMI]
  rw [if_neg (by push_neg; exact ⟨hh, hw⟩)]
  rcases hg with hg | hg <;> subst hg <;>
  · simp only [reduceIte, if_neg (by linarith : ¬ w / ((h / 100) * (h / 100)) < 18.5),
      if_neg (by rintro ⟨-, hc⟩; linarith :
        ¬(18.5 ≤ w / ((h / 100) * (h / 100)) ∧ w / ((h / 100) * (h / 100)) < 24.9)),
      if_neg (by rintro ⟨hc, -⟩; linarith :
        ¬(25 ≤ w / ((h / 100) * (h / 100)) ∧ w / ((h / 100) * (h / 100)) < 29.9))]
    rfl

/-- Witness for C10 at height 100 cm, weight 24.9 kg (BMI exactly 24.9). -/
theorem calculateBMI_gap_obese_witness :
    (calculateBMI "male" (some 100) (some (24.9 : ℚ))).resultCategory =
      some "BMI Category: Obese" :=
  calculateBMI_gap_obese "male" 100 (24.9 : ℚ) (Or.inl rfl) (by norm_num)
    (by norm_num) (by norm_num) (by norm_num)

/-! ## Opening hours (`parseDaysHours`, source lines 50-70)

The JS code maps each `weekday_text` entry through
`e.split(/\:\s+/)` and keeps `e[0].substr(0, 3)` as the day label and
`e[1]` (possibly `undefined`) as the hours, then collapses adjacent
entries with identical hours in place. -/

/-- Characters matched by the JS regex class `\s`. -/
def jsIsSpace (c : Char) : Bool :=
  c = ' ' || c = '\t' || c = '\n' || c = '\r' || c = '\u000B' || c = '\u000C' ||
  c = ' ' || c = ' ' || (0x2000 ≤ c.toNat && c.toNat ≤ 0x200A) ||
  c = ' ' || c = ' ' || c = ' ' || c = ' ' ||
  c = '　' || c = '﻿'

/-- Characters matched by the JS regex class `\w`. -/
def isWordChar (c : Char) : Bool :=
  c.isAlphanum || c = '_'

/-- Prepend a character to the first segment of a split result. -/
def consHead (c : Char) : List (List Char) → List (List Char)
  | [] => [[c]]
  | s :: ss => (c :: s) :: ss

/-- Whether a character list starts with a `\s` character. -/
def firstIsWs : List Char → Bool
  | [] => false
  | c :: _ => jsIsSpace c

/-- Scanner for `String.prototype.split(/\:\s+/)`: `skipping` records that
the scanner is inside the greedy `\s+` part of a match. -/
def splitGo (skipping : Bool) : List Char → List (List Char)
  | [] => [[]]
  | c :: rest =>
    if skipping && jsIsSpace c then splitGo true rest
    else if c = ':' && firstIsWs rest then [] :: splitGo true rest
    else consHead c (splitGo false rest)

/-- Model of `e.split(/\:\s+/)`: segments between the leftmost,
non-overlapping, greedy matches of a colon followed by whitespace. -/
def splitColonWs (l : List Char) : List (List Char) :=
  splitGo false l

/-- One entry of the intermediate `daysHours` array: a (possibly merged)
day label and the hours text (`none` models `undefined`, produced by the
JS `e[1]` when the entry contains no colon-space separator). -/
structure DaysHours where
  days : List Char
  hours : Option (List Char)
deriving DecidableEq

/-- The element mapping of source lines 55-56: split the entry, keep the
first three characters of the first segment and the second segment. -/
def parseEntry (e : List Char) : DaysHours :=
  let segs := splitColonWs e
  { days := segs.headI.take 3, hours := segs.get? 1 }

/-- Model of `s.replace(/\w+$/, repl)`: replace the maximal non-empty
suffix of word characters, if any, by `repl`.  (The JS dollar-escape
forms in the replacement string are not modelled; the replacements used
by the source are day-name prefixes, which contain no dollar sign.) -/
def replaceLastWord (s repl : List Char) : List Char :=
  let r := s.reverse
  if (r.takeWhile isWordChar).isEmpty then s
  else (r.dropWhile isWordChar).reverse ++ repl

/-- The day-label merge of source lines 60-65: extend an existing range
in place, or join the two labels with " - ". -/
def mergeDays (prev cur : List Char) : List Char :=
  if '-' ∈ prev then replaceLastWord prev cur
  else prev ++ (' ' :: '-' :: ' ' :: cur)

/-- The in-place collapsing loop of source lines 58-68, written as
structural recursion: when the accumulated previous element and the next
element carry the same hours, the next element is merged into the
previous one (`splice` + `i--`); otherwise the previous element is
emitted and scanning continues from the next element. -/
def collapseLoop (prev : DaysHours) : List DaysHours → List DaysHours
  | [] => [prev]
  | cur :: rest =>
    if prev.hours = cur.hours then
      collapseLoop ⟨mergeDays prev.days cur.days, prev.hours⟩ rest
    else
      prev :: collapseLoop cur rest

/-- The collapsing stage applied to the whole mapped array (for an empty
or singleton array the JS loop body never runs). -/
def collapseAll : List DaysHours → List DaysHours
  | [] => []
  | d :: ds => collapseLoop d ds

/-- A `PlaceOpeningHours` object as used by the widget: only its
`weekday_text` member is read. -/
structure OpeningHours where
  weekday_text : List (List Char)
deriving DecidableEq

/-- Model of `parseDaysHours` (source lines 54-70). -/
def parseDaysHours (openingHours : OpeningHours) : List DaysHours :=
  collapseAll (openingHours.weekday_text.map parseEntry)

/-- Spec-side element for one collapsed run: a run that stayed a single
day keeps its label; a longer run is rendered as first label, " - ",
last label (this definition follows the specification's wording and is
compared against the transcription of the code). -/
def specMergedElem (first : DaysHours) : Option DaysHours → DaysHours
  | none => first
  | some last => ⟨first.days ++ (' ' :: '-' :: ' ' :: last.days), first.hours⟩

/-- Spec-side scanner: `first` is the first element of the current run of
equal hours, `last` the latest further member of that run (if any). -/
def specRun (first : DaysHours) (last : Option DaysHours) :
    List DaysHours → List DaysHours
  | [] => [specMergedElem first last]
  | c :: rest =>
    if c.hours = first.hours then specRun first (some c) rest
    else specMergedElem first last :: specRun c none rest

/-- Spec-side collapsing: each maximal run of consecutive elements with
identical hours becomes a single element. -/
def specCollapseRuns : List DaysHours → List DaysHours
  | [] => []
  | d :: ds => specRun d none ds

/-- A non-empty label consisting only of `\w` characters (the shape of
every three-letter day prefix). -/
def WordOnly (l : List Char) : Prop :=
  l ≠ [] ∧ ∀ c ∈ l, isWordChar c = true

instance (l : List Char) : Decidable (WordOnly l) := by
  unfold WordOnly; infer_instance

/-- `takeWhile` swallows a prefix wholly satisfying the predicate and
stops at the first failing element. -/
lemma takeWhile_append_stop (p : Char → Bool) (xs : List Char) (y : Char)
    (ys : List Char) (hxs : ∀ c ∈ xs, p c = true) (hy : p y = false) :
    (xs ++ y :: ys).takeWhile p = xs := by
  induction xs with
  | nil => simp [List.takeWhile_cons, hy]
  | cons c cs ih =>
    simp [List.takeWhile_cons, hxs c (by simp),
      ih (fun c hc => hxs c (by simp [hc]))]

/-- `dropWhile` counterpart of `takeWhile_append_stop`. -/
lemma dropWhile_append_stop (p : Char → Bool) (xs : List Char) (y : Char)
    (ys : List Char) (hxs : ∀ c ∈ xs, p c = true) (hy : p y = false) :
    (xs ++ y :: ys).dropWhile p = y :: ys := by
  induction xs with
  | nil => simp [List.dropWhile_cons, hy]
  | cons c cs ih =>
    simp [List.dropWhile_cons, hxs c (by simp),
      ih (fun c hc => hxs c (by simp [hc]))]

/-- On a label of the form `a ++ " - " ++ b` with `b` a word, the JS
`replace(/\w+$/, n)` swaps the final word `b` for `n`. -/
lemma replaceLastWord_merged (a b n : List Char) (hb : WordOnly b) :
    replaceLastWord (a ++ ' ' :: '-' :: ' ' :: b) n =
      a ++ ' ' :: '-' :: ' ' :: n := by
  have hrev : (a ++ ' ' :: '-' :: ' ' :: b).reverse =
      b.reverse ++ ' ' :: '-' :: ' ' :: a.reverse := by
    simp
  have hwmem : ∀ c ∈ b.reverse, isWordChar c = true := by
    intro c hc
    exact hb.2 c (List.mem_reverse.1 hc)
  have hspace : isWordChar ' ' = false := by decide
  have htake : ((a ++ ' ' :: '-' :: ' ' :: b).reverse).takeWhile isWordChar =
      b.reverse := by
    rw [hrev]
    exact takeWhile_append_stop _ _ _ _ hwmem hspace
  have hdrop : ((a ++ ' ' :: '-' :: ' ' :: b).reverse).dropWhile isWordChar =
      ' ' :: '-' :: ' ' :: a.reverse := by
    rw [hrev]
    exact dropWhile_append_stop _ _ _ _ hwmem hspace
  have hne : b.reverse ≠ [] := by
    simpa using hb.1
  simp only [replaceLastWord, htake, hdrop]
  rw [if_neg (by simpa [List.isEmpty_iff] using hne)]
  simp

/-- Merging into a plain word label appends " - " and the new day. -/
lemma mergeDays_word (hd d : List Char) (hhd : WordOnly hd) :
    mergeDays hd d = hd ++ ' ' :: '-' :: ' ' :: d := by
  have : '-' ∉ hd := by
    intro hmem
    have := hhd.2 '-' hmem
    simp [isWordChar] at this
  simp only [mergeDays]
  rw [if_neg this]

/-- Merging into an already collapsed label rewrites its final word. -/
lemma mergeDays_merged (a b d : List Char) (hb : WordOnly b) :
    mergeDays (a ++ ' ' :: '-' :: ' ' :: b) d =
      a ++ ' ' :: '-' :: ' ' :: d := by
  have : '-' ∈ a ++ ' ' :: '-' :: ' ' :: b := by simp
  simp only [mergeDays]
  rw [if_pos this]
  exact replaceLastWord_merged a b d hb

/-- The collapsing loop agrees with the spec-side run scanner: starting
from the partially merged element described by `first`/`last`, both
produce the same collapsed list, provided every day label in sight is a
non-empty word. -/
lemma collapseLoop_eq_specRun (ds : List DaysHours) :
    ∀ (first : DaysHours) (last : Option DaysHours),
      (∀ x ∈ ds, WordOnly x.days) → WordOnly first.days →
      (∀ l, last = some l → WordOnly l.days) →
      collapseLoop (specMergedElem first last) ds = specRun first last ds := by
  induction ds with
  | nil => intro first last _ _ _; cases last <;> rfl
  | cons c rest ih =>
    intro first last hds hf hl
    have hprevh : (specMergedElem first last).hours = first.hours := by
      cases last <;> rfl
    by_cases hc : c.hours = first.hours
    · rw [collapseLoop, if_pos (by rw [hprevh, hc]), specRun, if_pos hc]
      have hmerge : (⟨mergeDays (specMergedElem first last).days c.days,
          (specMergedElem first last).hours⟩ : DaysHours) =
          specMergedElem first (some c) := by
        cases last with
        | none =>
          simp only [specMergedElem, mergeDays_word first.days c.days hf, hprevh]
        | some l =>
          simp only [specMergedElem,
            mergeDays_merged first.days l.days c.days (hl l rfl), hprevh]
      rw [hmerge]
      exact ih first (some c) (fun x hx => hds x (List.mem_cons_of_mem _ hx)) hf
        (fun l hlast => by
          cases hlast
          exact hds c (List.mem_cons_self _ _))
    · rw [collapseLoop, if_neg (by rw [hprevh]; exact fun h => hc h.symm),
        specRun, if_neg hc]
      have hrest : collapseLoop c rest = specRun c none rest :=
        ih c none (fun x hx => hds x (List.mem_cons_of_mem _ hx))
          (hds c (List.mem_cons_self _ _)) (fun l hlast => by cases hlast)
      rw [hrest]

/-- The whole collapsing stage agrees with the spec-side collapsing. -/
lemma collapseAll_eq_specCollapseRuns (l : List DaysHours)
    (h : ∀ x ∈ l, WordOnly x.days) : collapseAll l = specCollapseRuns l := by
  cases l with
  | nil => rfl
  | cons d ds =>
    have hstart : collapseLoop d ds = collapseLoop (specMergedElem d none) ds := rfl
    rw [collapseAll, hstart, specCollapseRuns]
    exact collapseLoop_eq_specRun ds d none
      (fun x hx => h x (List.mem_cons_of_mem _ hx))
      (h d (List.mem_cons_self _ _)) (fun l hlast => by cases hlast)

/-- C8: on any `weekday_text` whose entries parse to non-empty word day
labels, `parseDaysHours` collapses every maximal run of consecutive days
with identical hours into a single element labelled with the three-letter
prefix of the first day, " - ", and the three-letter prefix of the last
day of the run, keeping the shared hours, while days with distinct hours
stay separate in the original order (this is exactly what
`specCollapseRuns` produces on the parsed entries). -/
theorem parseDaysHours_collapses_runs (wt : List (List Char))
    (hwf : ∀ e ∈ wt, WordOnly (parseEntry e).days) :
    parseDaysHours ⟨wt⟩ = specCollapseRuns (wt.map parseEntry) := by
  unfold parseDaysHours
  refine collapseAll_eq_specCollapseRuns _ ?_
  intro x hx
  rcases List.mem_map.1 hx with ⟨e, he, rfl⟩
  exact hwf e he

/-- Witness for C8 on a concrete week: Monday through Friday share one
hours string, Saturday and Sunday differ. -/
theorem parseDaysHours_collapses_runs_witness :
    (∀ e ∈ [("Monday: 9:00 AM to 5:00 PM").toList,
            ("Tuesday: 9:00 AM to 5:00 PM").toList,
            ("Wednesday: 9:00 AM to 5:00 PM").toList,
            ("Thursday: 9:00 AM to 5:00 PM").toList,
            ("Friday: 9:00 AM to 5:00 PM").toList,
            ("Saturday: 10:00 AM to 2:00 PM").toList,
            ("Sunday: Closed").toList], WordOnly (parseEntry e).days) ∧
    parseDaysHours ⟨[("Monday: 9:00 AM to 5:00 PM").toList,
            ("Tuesday: 9:00 AM to 5:00 PM").toList,
            ("Wednesday: 9:00 AM to 5:00 PM").toList,
            ("Thursday: 9:00 AM to 5:00 PM").toList,
            ("Friday: 9:00 AM to 5:00 PM").toList,
            ("Saturday: 10:00 AM to 2:00 PM").toList,
            ("Sunday: Closed").toList]⟩ =
      specCollapseRuns ([("Monday: 9:00 AM to 5:00 PM").toList,
            ("Tuesday: 9:00 AM to 5:00 PM").toList,
            ("Wednesday: 9:00 AM to 5:00 PM").toList,
            ("Thursday: 9:00 AM to 5:00 PM").toList,
            ("Friday: 9:00 AM to 5:00 PM").toList,
            ("Saturday: 10:00 AM to 2:00 PM").toList,
            ("Sunday: Closed").toList].map parseEntry) :=
  ⟨by decide, parseDaysHours_collapses_runs _ (by decide)⟩

/-- Concrete evaluation of the same week: the collapsed list is
"Mon - Fri", "Sat", "Sun" with their hours. -/
lemma parseDaysHours_sample :
    parseDaysHours ⟨[("Monday: 9:00 AM to 5:00 PM").toList,
            ("Tuesday: 9:00 AM to 5:00 PM").toList,
            ("Wednesday: 9:00 AM to 5:00 PM").toList,
            ("Thursday: 9:00 AM to 5:00 PM").toList,
            ("Friday: 9:00 AM to 5:00 PM").toList,
            ("Saturday: 10:00 AM to 2:00 PM").toList,
            ("Sunday: Closed").toList]⟩ =
      [⟨("Mon - Fri").toList, some ("9:00 AM to 5:00 PM").toList⟩,
       ⟨("Sat").toList, some ("10:00 AM to 2:00 PM").toList⟩,
       ⟨("Sun").toList, some ("Closed").toList⟩] := by
  decide

/-! ## Place details cache and retry fetcher
(`initializePlaceDetails`, source lines 186-293)

The widget state that `fetchPlaceDetails` and its `processResult`
callback mutate is made explicit: the `placeIdsToDetails` map (a JS
`Map`, modelled as an association list in insertion order), the set of
in-flight requests with their captured `request`/`retryCount` closure
state, and the autocomplete-result map consulted before contacting the
service.  Two observation logs record the externally visible behaviour:
every `getDetails` request issued to the Places service and every
`setTimeout` delay scheduled for a retry. -/

/-- Maximum number of place photos shown on the details panel
(`ND_NUM_PLACE_PHOTOS_MAX`, source line 79). -/
def ndNumPlacePhotosMax : ℕ := 6

/-- `ND_MARKER_ICONS_BY_TYPE` (source lines 85-90). -/
def ndMarkerIconsByType : List (String × String) :=
  [("_default", "circle"), ("hospital", "local_hospital"),
   ("pharmacy", "local_pharmacy")]

/-- JS property indexing into `ND_MARKER_ICONS_BY_TYPE` (`none` models
`undefined`); `isSome` models the JS `in` membership test. -/
def ndIconFor (t : String) : Option String :=
  (ndMarkerIconsByType.find? (fun kv => kv.1 == t)).map (fun kv => kv.2)

/-- Model of `formatPlaceType` (source lines 22-25): capitalize the first
character, then replace underscores by spaces. -/
def formatPlaceType (str : String) : String :=
  let capitalized : List Char :=
    match str.data with
    | [] => []
    | c :: cs => c.toUpper :: cs
  ⟨capitalized.map (fun c => if c = '_' then ' ' else c)⟩

/-- Simplified model of the hostname extraction `new URL(s).hostname`
performed by the browser URL parser (an external collaborator): the part
after "://" up to the first slash, port stripped. -/
def urlHostname (website : String) : String :=
  let afterScheme := (website.splitOn "://").getD 1 ""
  ((afterScheme.splitOn "/").headI.splitOn ":").headI

/-- Status of a Places service response; every failure status other than
`OVER_QUERY_LIMIT` is carried by `otherFailure`. -/
inductive PlacesServiceStatus where
  | OK : PlacesServiceStatus
  | OVER_QUERY_LIMIT : PlacesServiceStatus
  | otherFailure (code : String) : PlacesServiceStatus
deriving DecidableEq

/-- The `geometry` member of a Places result. -/
structure Geometry where
  location : ℚ × ℚ
deriving DecidableEq

/-- A photo object of a Places result; `urlSmall`/`urlLarge` carry what
the external `photo.getUrl` returns for the two size requests of source
lines 233-234, `html_attributions` its attribution markup. -/
structure RawPhoto where
  urlSmall : String
  urlLarge : String
  html_attributions : String
deriving DecidableEq

/-- The photo record the widget stores (source lines 232-236). -/
structure PlacePhoto where
  urlSmall : String
  urlLarge : String
  attrs : String
deriving DecidableEq

/-- A Places service result (or Autocomplete result): every attribute the
merge code of source lines 227-275 reads, `none` modelling an absent
attribute.  Reviews are modelled by their rating payload (`StarRated`),
the only part the widget processes. -/
structure PlaceResult where
  name : Option String := none
  geometry : Option Geometry := none
  formatted_address : Option String := none
  photos : Option (List RawPhoto) := none
  types : Option (List String) := none
  url : Option String := none
  website : Option String := none
  formatted_phone_number : Option String := none
  opening_hours : Option OpeningHours := none
  rating : Option ℚ := none
  user_ratings_total : Option ℚ := none
  price_level : Option ℤ := none
  reviews : Option (List StarRated) := none
deriving DecidableEq

/-- A cached place object.  The source stores `rating` and the star-icon
arrays directly on the place; they are grouped in `stars` so that
`addStarIcons` applies to places and reviews alike. -/
structure Place where
  placeId : String
  fetchedFields : Finset String
  name : Option String := none
  coords : Option (ℚ × ℚ) := none
  address : Option String := none
  photos : Option (List PlacePhoto) := none
  type : Option String := none
  icon : Option String := none
  url : Option String := none
  website : Option String := none
  websiteDomain : Option String := none
  phoneNumber : Option String := none
  openingHours : Option (List DaysHours) := none
  stars : StarRated := {}
  numReviews : Option ℚ := none
  priceLevel : Option ℤ := none
  dollarSigns : Option (List ℕ) := none
  reviews : Option (List StarRated) := none
deriving DecidableEq

/-- JS truthiness of a possibly-absent string (the empty string is
falsy). -/
def truthyStr : Option String → Bool
  | none => false
  | some s => s != ""

/-- JS truthiness of a possibly-absent number (0 is falsy). -/
def truthyNum : Option ℚ → Bool
  | none => false
  | some q => q != 0

/-- JS truthiness of a possibly-absent integral number (0 is falsy). -/
def truthyInt : Option ℤ → Bool
  | none => false
  | some n => n != 0

/-- Source line 228: `if (result.name) place.name = result.name;`. -/
def applyName (place : Place) (result : PlaceResult) : Place :=
  if truthyStr result.name then { place with name := result.name } else place

/-- Source line 229: the geometry object is truthy iff present. -/
def applyGeometry (place : Place) (result : PlaceResult) : Place :=
  match result.geometry with
  | some g => { place with coords := some g.location }
  | none => place

/-- Source line 230. -/
def applyAddress (place : Place) (result : PlaceResult) : Place :=
  if truthyStr result.formatted_address then
    { place with address := result.formatted_address }
  else place

/-- Source lines 231-237: map the photos to url/attribution records and
keep at most `ndNumPlacePhotosMax` of them (an array is truthy even when
empty). -/
def applyPhotos (place : Place) (result : PlaceResult) : Place :=
  match result.photos with
  | some photos =>
    { place with photos := some ((photos.map (fun photo =>
        (⟨photo.urlSmall, photo.urlLarge, photo.html_attributions⟩ : PlacePhoto))).take
          ndNumPlacePhotosMax) }
  | none => place

/-- Source lines 238-248: default type/icon from `types[0]`, then the
first type with a configured marker icon wins.  `ts.headI` models the JS
`result.types[0]`; the service returns a non-empty `types` array whenever
types are requested (on an empty array the JS itself would throw inside
`formatPlaceType`). -/
def applyTypes (place : Place) (result : PlaceResult) : Place :=
  match result.types with
  | some ts =>
    let p1 := { place with type := some (formatPlaceType ts.headI),
                           icon := ndIconFor "_default" }
    match ts.find? (fun t => (ndIconFor t).isSome) with
    | some t => { p1 with type := some (formatPlaceType t), icon := ndIconFor t }
    | none => p1
  | none => place

/-- Source line 249. -/
def applyUrl (place : Place) (result : PlaceResult) : Place :=
  if truthyStr result.url then { place with url := result.url } else place

/-- Source lines 252-256: store the website and its parsed hostname. -/
def applyWebsite (place : Place) (result : PlaceResult) : Place :=
  match result.website with
  | some w =>
    if w != "" then
      { place with website := some w, websiteDomain := some (urlHostname w) }
    else place
  | none => place

/-- Source line 257. -/
def applyPhone (place : Place) (result : PlaceResult) : Place :=
  if truthyStr result.formatted_phone_number then
    { place with phoneNumber := result.formatted_phone_number }
  else place

/-- Source line 258: parse and store the opening hours. -/
def applyOpeningHours (place : Place) (result : PlaceResult) : Place :=
  match result.opening_hours with
  | some oh => { place with openingHours := some (parseDaysHours oh) }
  | none => place

/-- Source lines 261-264: store the rating and attach star icons to the
place itself. -/
def applyRating (place : Place) (result : PlaceResult) : Place :=
  if truthyNum result.rating then
    { place with stars := addStarIcons { place.stars with rating := result.rating } }
  else place

/-- Source line 265. -/
def applyNumReviews (place : Place) (result : PlaceResult) : Place :=
  if truthyNum result.user_ratings_total then
    { place with numReviews := result.user_ratings_total }
  else place

/-- Source lines 266-269: price level and its dollar-sign array. -/
def applyPriceLevel (place : Place) (result : PlaceResult) : Place :=
  match result.price_level with
  | some n =>
    if n != 0 then
      { place with priceLevel := some n, dollarSigns := some (initArray n) }
    else place
  | none => place

/-- Source lines 270-275: store the reviews and attach star icons to each
of them (an array is truthy even when empty). -/
def applyReviews (place : Place) (result : PlaceResult) : Place :=
  match result.reviews with
  | some rs => { place with reviews := some (rs.map addStarIcons) }
  | none => place

/-- The merge block of `processResult` on a successful response (source
lines 227-275), applied attribute by attribute in source order. -/
def mergeResult (place : Place) (result : PlaceResult) : Place :=
  let p1 := applyName place result
  let p2 := applyGeometry p1 result
  let p3 := applyAddress p2 result
  let p4 := applyPhotos p3 result
  let p5 := applyTypes p4 result
  let p6 := applyUrl p5 result
  let p7 := applyWebsite p6 result
  let p8 := applyPhone p7 result
  let p9 := applyOpeningHours p8 result
  let p10 := applyRating p9 result
  let p11 := applyNumReviews p10 result
  let p12 := applyPriceLevel p11 result
  applyReviews p12 result

/-- Source lines 277-279 after the merge: mark every requested missing
field as fetched. -/
def mergeAndMark (place : Place) (missingFields : List String)
    (result : PlaceResult) : Place :=
  let p := mergeResult place result
  { p with fetchedFields :=
      missingFields.foldl (fun s f => insert f s) p.fetchedFields }

/-- One in-flight request together with the state its `processResult`
closure captured: the `request` payload (`placeId` and the missing
fields, source line 211) and the mutable `retryCount` (source line 212). -/
structure Pending where
  placeId : String
  missingFields : List String
  retryCount : ℕ
deriving DecidableEq

/-- One request issued to the external Places service via
`detailsService.getDetails` (source lines 221 and 291). -/
structure Request where
  placeId : String
  fields : List String
deriving DecidableEq

/-- The explicit widget state: the place cache, the in-flight requests,
the log of requests issued to the service, the log of scheduled retry
delays, and the autocomplete-result map of `initializeSearchInput`. -/
structure FetchState where
  placeIdsToDetails : List (String × Place)
  pending : List Pending
  requestLog : List Request
  delaysLog : List ℚ
  placeIdsToAutocompleteResults : List (String × PlaceResult)
deriving DecidableEq

/-- Result of one synchronous step: the new state and the callback
invocations (with their argument) made during the step. -/
structure StepOut where
  state : FetchState
  callbacks : List Place
deriving DecidableEq

/-- `Map.prototype.get`, on an association list kept in insertion
order. -/
def assocLookup {α : Type} : List (String × α) → String → Option α
  | [], _ => none
  | (k, v) :: rest, key => if k = key then some v else assocLookup rest key

/-- `Map.prototype.set`: overwrite the value of an existing key in place,
otherwise append the new entry. -/
def assocSet {α : Type} : List (String × α) → String → α → List (String × α)
  | [], key, v => [(key, v)]
  | (k, w) :: rest, key, v =>
    if k = key then (k, v) :: rest else (k, w) :: assocSet rest key v

/-- A place object as created on first reference (source line 202), and
as initialized for each configured POI (source lines 191-194). -/
def freshPlace (placeId : String) : Place :=
  { placeId := placeId, fetchedFields := {"place_id"} }

/-- The fetched-fields set of the cached place for `pid` (empty if no
place is cached yet). -/
def fetchedOf (s : FetchState) (pid : String) : Finset String :=
  match assocLookup s.placeIdsToDetails pid with
  | some p => p.fetchedFields
  | none => ∅

/-- The place object `fetchPlaceDetails` works on for `pid`: the cached
entry, or the freshly created one (source lines 200-204). -/
def placeAtCall (s : FetchState) (pid : String) : Place :=
  match assocLookup s.placeIdsToDetails pid with
  | some p => p
  | none => freshPlace pid

/-- The success path of `processResult` (source lines 227-280): merge the
result into the captured place object, mark the missing fields fetched
and invoke the callback.  In the source the closure's `place` aliases
the map entry for its id (the entry is never replaced once created), so
mutating it is modelled by updating the map at `pid`. -/
def processOkCore (s : FetchState) (pid : String) (missingFields : List String)
    (result : PlaceResult) : StepOut :=
  match assocLookup s.placeIdsToDetails pid with
  | some place =>
    let placeNew := mergeAndMark place missingFields result
    ⟨{ s with placeIdsToDetails := assocSet s.placeIdsToDetails pid placeNew },
      [placeNew]⟩
  | none => ⟨s, []⟩

/-- Model of one `widget.fetchPlaceDetails(placeId, fields, callback)`
call (source lines 196-292) up to the point where it returns: the empty
`placeId` guard (`!placeId`; `fields` is always an array here), lazy
creation of the cache entry, the missing-field computation and the
immediate-callback shortcut, then either the synchronous autocomplete
path or the issue of a `getDetails` request that becomes an in-flight
`Pending` with `retryCount` 0. -/
def fetchPlaceDetails (s : FetchState) (placeId : String)
    (fields : List String) : StepOut :=
  if placeId = "" then ⟨s, []⟩
  else
    let place := placeAtCall s placeId
    let s1 : FetchState :=
      match assocLookup s.placeIdsToDetails placeId with
      | some _ => s
      | none =>
        { s with placeIdsToDetails := assocSet s.placeIdsToDetails placeId place }
    let missingFields := fields.filter (fun field => decide (field ∉ place.fetchedFields))
    if missingFields.isEmpty then ⟨s1, [place]⟩
    else
      let request : Request := ⟨placeId, missingFields⟩
      match assocLookup s.placeIdsToAutocompleteResults placeId with
      | some autoCompleteResult =>
        processOkCore s1 placeId missingFields autoCompleteResult
      | none =>
        ⟨{ s1 with pending := s1.pending ++ [⟨placeId, missingFields, 0⟩],
                   requestLog := s1.requestLog ++ [request] }, []⟩

/-- The retry delay computed on source line 220:
`(Math.pow(2, retryCount) + Math.random()) * 500`, with the
`Math.random()` draw passed in as `jitter`. -/
def retryDelay (retryCount : ℕ) (jitter : ℚ) : ℚ :=
  (2 ^ retryCount + jitter) * 500

/-- Model of the service delivering a response to the `i`-th in-flight
request, running its `processResult` closure (source lines 213-281): on
failure, an `OVER_QUERY_LIMIT` status with `retryCount < 5` schedules a
re-issue of the captured request after `retryDelay` and increments the
counter, while any other failure (or an exhausted rate-limit retry
budget) just returns, abandoning the request; on success the result is
merged and the callback runs. -/
def processResult (s : FetchState) (i : ℕ) (result : PlaceResult)
    (status : PlacesServiceStatus) (jitter : ℚ) : StepOut :=
  match s.pending.get? i with
  | none => ⟨s, []⟩
  | some pr =>
    match status with
    | .OK =>
      processOkCore { s with pending := s.pending.eraseIdx i }
        pr.placeId pr.missingFields result
    | .OVER_QUERY_LIMIT =>
      if pr.retryCount < 5 then
        ⟨{ s with
            pending := s.pending.set i { pr with retryCount := pr.retryCount + 1 },
            requestLog := s.requestLog ++ [⟨pr.placeId, pr.missingFields⟩],
            delaysLog := s.delaysLog ++ [retryDelay pr.retryCount jitter] }, []⟩
      else
        ⟨{ s with pending := s.pending.eraseIdx i }, []⟩
    | .otherFailure _ => ⟨{ s with pending := s.pending.eraseIdx i }, []⟩

/-- An externally triggered step: a `fetchPlaceDetails` call, or a
service response for an in-flight request. -/
inductive Event where
  | call (placeId : String) (fields : List String) : Event
  | respond (i : ℕ) (result : PlaceResult) (status : PlacesServiceStatus)
      (jitter : ℚ) : Event
deriving DecidableEq

/-- Dispatch one event. -/
def step (s : FetchState) : Event → StepOut
  | .call placeId fields => fetchPlaceDetails s placeId fields
  | .respond i result status jitter => processResult s i result status jitter

/-- Run a sequence of events, keeping only the state. -/
def runEvents (s : FetchState) (events : List Event) : FetchState :=
  events.foldl (fun st e => (step st e).state) s

/-- The initial widget state for the configured POIs (source lines
189-194): every configured place starts with fetched-fields
`{"place_id"}`. -/
def initState (pois : List String) : FetchState :=
  ⟨pois.map (fun pid => (pid, freshPlace pid)), [], [], [], []⟩

/-- `processOkCore` issues no service request. -/
lemma processOkCore_requestLog (s : FetchState) (pid : String)
    (missing : List String) (r : PlaceResult) :
    (processOkCore s pid missing r).state.requestLog = s.requestLog := by
  unfold processOkCore
  cases assocLookup s.placeIdsToDetails pid <;> rfl

/-- `processOkCore` leaves the in-flight requests unchanged. -/
lemma processOkCore_pending (s : FetchState) (pid : String)
    (missing : List String) (r : PlaceResult) :
    (processOkCore s pid missing r).state.pending = s.pending := by
  unfold processOkCore
  cases assocLookup s.placeIdsToDetails pid <;> rfl

/-- C2: a `fetchPlaceDetails` call whose requested fields are all already
in the cached place's fetched-fields set invokes the callback in the same
step with the cached place object and leaves the state untouched — in
particular, no request is issued to the external service. -/
theorem fetchPlaceDetails_cached_callback (s : FetchState) (placeId : String)
    (fields : List String) (p : Place)
    (hpid : placeId ≠ "")
    (hlook : assocLookup s.placeIdsToDetails placeId = some p)
    (hne : fields ≠ [])
    (hsub : ∀ f ∈ fields, f ∈ p.fetchedFields) :
    fetchPlaceDetails s placeId fields = ⟨s, [p]⟩ := by
  have hplace : placeAtCall s placeId = p := by
    simp [placeAtCall, hlook]
  have hmiss : fields.filter (fun field => decide (field ∉ p.fetchedFields)) = [] := by
    rw [List.filter_eq_nil_iff]
    intro f hf
    simp [hsub f hf]
  simp only [fetchPlaceDetails, hplace, hlook, hmiss]
  rw [if_neg hpid]
  rfl

/-- Witness for C2: one cached place whose only fetched field is
requested again; the callback fires with the cached object and the state
is unchanged. -/
theorem fetchPlaceDetails_cached_callback_witness :
    fetchPlaceDetails ⟨[("p1", freshPlace "p1")], [], [], [], []⟩ "p1" ["place_id"] =
      ⟨⟨[("p1", freshPlace "p1")], [], [], [], []⟩, [freshPlace "p1"]⟩ :=
  fetchPlaceDetails_cached_callback _ "p1" ["place_id"] (freshPlace "p1")
    (by decide) (by decide) (by decide) (by decide)

/-- C3: a `fetchPlaceDetails` call with at least one not-yet-fetched
field sends, when no autocomplete result short-circuits the service, a
single request carrying exactly the missing subset of the requested
fields — a field is in the request iff it was requested and is not in the
fetched-fields set; when an autocomplete result is available instead, no
request at all reaches the service. -/
theorem fetchPlaceDetails_requests_exactly_missing (s : FetchState)
    (placeId : String) (fields : List String)
    (hpid : placeId ≠ "")
    (hmiss : ∃ f ∈ fields, f ∉ (placeAtCall s placeId).fetchedFields) :
    (assocLookup s.placeIdsToAutocompleteResults placeId = none →
      (fetchPlaceDetails s placeId fields).state.requestLog =
        s.requestLog ++ [⟨placeId, fields.filter
          (fun field => decide (field ∉ (placeAtCall s placeId).fetchedFields))⟩] ∧
      ∀ f, (f ∈ fields.filter
          (fun field => decide (field ∉ (placeAtCall s placeId).fetchedFields))) ↔
        (f ∈ fields ∧ f ∉ (placeAtCall s placeId).fetchedFields)) ∧
    (∀ r, assocLookup s.placeIdsToAutocompleteResults placeId = some r →
      (fetchPlaceDetails s placeId fields).state.requestLog = s.requestLog) := by
  have hfil : fields.filter
      (fun field => decide (field ∉ (placeAtCall s placeId).fetchedFields)) ≠ [] := by
    rcases hmiss with ⟨f, hf, hnf⟩
    intro hnil
    have : f ∈ fields.filter
        (fun field => decide (field ∉ (placeAtCall s placeId).fetchedFields)) :=
      List.mem_filter.2 ⟨hf, by simp [hnf]⟩
    rw [hnil] at this
    exact (List.not_mem_nil f) this
  have hfilEmpty :
      ¬(fields.filter
        (fun field => decide (field ∉ (placeAtCall s placeId).fetchedFields))).isEmpty = true := by
    simpa [List.isEmpty_iff] using hfil
  constructor
  · intro hac
    constructor
    · simp only [fetchPlaceDetails]
      rw [if_neg hpid]
      cases hl : assocLookup s.placeIdsToDetails placeId with
      | some q => simp only [hl, hac, if_neg hfilEmpty]
      | none => simp only [hl, hac, if_neg hfilEmpty]
    · intro f
      rw [List.mem_filter]
      simp
  · intro r hac
    simp only [fetchPlaceDetails]
    rw [if_neg hpid]
    cases hl : assocLookup s.placeIdsToDetails placeId with
    | some q =>
      simp only [hl, hac, if_neg hfilEmpty]
      rw [processOkCore_requestLog]
    | none =>
      simp only [hl, hac, if_neg hfilEmpty]
      rw [processOkCore_requestLog]

/-- Witness for C3: a fresh place is asked for "name" and "place_id";
only "name" goes into the single request issued. -/
theorem fetchPlaceDetails_requests_exactly_missing_witness :
    ((fetchPlaceDetails ⟨[("p1", freshPlace "p1")], [], [], [], []⟩
        "p1" ["name", "place_id"]).state.requestLog =
      [] ++ [⟨"p1", (["name", "place_id"].filter (fun field =>
        decide (field ∉ (placeAtCall
          ⟨[("p1", freshPlace "p1")], [], [], [], []⟩ "p1").fetchedFields)))⟩] ∧
     ∀ f, (f ∈ ["name", "place_id"].filter (fun field =>
        decide (field ∉ (placeAtCall
          ⟨[("p1", freshPlace "p1")], [], [], [], []⟩ "p1").fetchedFields))) ↔
       (f ∈ ["name", "place_id"] ∧ f ∉ (placeAtCall
          ⟨[("p1", freshPlace "p1")], [], [], [], []⟩ "p1").fetchedFields)) :=
  (fetchPlaceDetails_requests_exactly_missing
    ⟨[("p1", freshPlace "p1")], [], [], [], []⟩ "p1" ["name", "place_id"]
    (by decide) ⟨"name", by decide, by decide⟩).1 rfl

/-- C5: a response with any failure status other than `OVER_QUERY_LIMIT`
silently abandons the call: no callback fires, no retry is scheduled and
nothing else in the state changes (the place cache, the request log and
the delay log are untouched; the fetcher contains no user-facing error
output at all). -/
theorem processResult_other_failure_dropped (s : FetchState) (i : ℕ)
    (pr : Pending) (result : PlaceResult) (code : String) (jitter : ℚ)
    (hp : s.pending.get? i = some pr) :
    processResult s i result (.otherFailure code) jitter =
      ⟨{ s with pending := s.pending.eraseIdx i }, []⟩ := by
  simp only [processResult, hp]

/-- Witness for C5: a ZERO_RESULTS response to the only in-flight request
drops it with no callback and no other state change. -/
theorem processResult_other_failure_dropped_witness :
    processResult ⟨[("p1", freshPlace "p1")], [⟨"p1", ["name"], 0⟩], [], [], []⟩
        0 {} (.otherFailure "ZERO_RESULTS") 0 =
      ⟨⟨[("p1", freshPlace "p1")], [], [], [], []⟩, []⟩ :=
  processResult_other_failure_dropped
    ⟨[("p1", freshPlace "p1")], [⟨"p1", ["name"], 0⟩], [], [], []⟩
    0 ⟨"p1", ["name"], 0⟩ {} "ZERO_RESULTS" 0 rfl

/-- C1: a call whose request keeps receiving `OVER_QUERY_LIMIT` is
retried exactly 5 times with exponential backoff, then silently dropped.
Starting from a fresh in-flight request (`retryCount` 0), six successive
rate-limited responses with jitter draws `j0..j5` from [0, 1) behave as
follows: no callback ever fires; the first five responses each re-issue
the captured request (so the request log grows by exactly five copies)
and schedule delays `(2 ^ k + jk) * 500` for `k = 0..4`; the first delay
lies in [500, 1000) and the delays are non-decreasing (indeed the sixth
response schedules nothing, removes the request and leaves every log and
the place cache untouched). -/
theorem processResult_rate_limited_five_retries
    (m : List (String × Place)) (log : List Request) (dlog : List ℚ)
    (ac : List (String × PlaceResult)) (placeId : String)
    (fields : List String) (result : PlaceResult) (j0 j1 j2 j3 j4 j5 : ℚ)
    (hj0 : 0 ≤ j0) (hj0u : j0 < 1) (hj1 : 0 ≤ j1) (hj1u : j1 < 1)
    (hj2 : 0 ≤ j2) (hj2u : j2 < 1) (hj3 : 0 ≤ j3) (hj3u : j3 < 1)
    (hj4 : 0 ≤ j4) (hj4u : j4 < 1) :
    (let s0 : FetchState := ⟨m, [⟨placeId, fields, 0⟩], log, dlog, ac⟩
     let o1 := processResult s0 0 result .OVER_QUERY_LIMIT j0
     let o2 := processResult o1.state 0 result .OVER_QUERY_LIMIT j1
     let o3 := processResult o2.state 0 result .OVER_QUERY_LIMIT j2
     let o4 := processResult o3.state 0 result .OVER_QUERY_LIMIT j3
     let o5 := processResult o4.state 0 result .OVER_QUERY_LIMIT j4
     let o6 := processResult o5.state 0 result .OVER_QUERY_LIMIT j5
     o1.callbacks = [] ∧ o2.callbacks = [] ∧ o3.callbacks = [] ∧
     o4.callbacks = [] ∧ o5.callbacks = [] ∧ o6.callbacks = [] ∧
     o5.state.requestLog =
       log ++ List.replicate 5 (⟨placeId, fields⟩ : Request) ∧
     o6.state.requestLog =
       log ++ List.replicate 5 (⟨placeId, fields⟩ : Request) ∧
     o6.state.pending = [] ∧
     o6.state.placeIdsToDetails = m ∧
     o6.state.delaysLog = dlog ++ [retryDelay 0 j0, retryDelay 1 j1,
       retryDelay 2 j2, retryDelay 3 j3, retryDelay 4 j4] ∧
     retryDelay 0 j0 = (2 ^ 0 + j0) * 500 ∧
     500 ≤ retryDelay 0 j0 ∧ retryDelay 0 j0 < 1000 ∧
     retryDelay 0 j0 ≤ retryDelay 1 j1 ∧ retryDelay 1 j1 ≤ retryDelay 2 j2 ∧
     retryDelay 2 j2 ≤ retryDelay 3 j3 ∧ retryDelay 3 j3 ≤ retryDelay 4 j4) := by
  refine ⟨rfl, rfl, rfl, rfl, rfl, rfl, ?_, ?_, rfl, rfl, ?_, rfl,
    ?_, ?_, ?_, ?_, ?_, ?_⟩
  · show ((((log ++ [_]) ++ [_]) ++ [_]) ++ [_]) ++ [_] = _
    simp [List.append_assoc]
  · show ((((log ++ [_]) ++ [_]) ++ [_]) ++ [_]) ++ [_] = _
    simp [List.append_assoc]
  · show ((((dlog ++ [_]) ++ [_]) ++ [_]) ++ [_]) ++ [_] = _
    simp [List.append_assoc]
  · simp only [retryDelay]
    nlinarith
  · simp only [retryDelay]
    nlinarith
  · simp only [retryDelay]
    nlinarith
  · simp only [retryDelay]
    nlinarith
  · simp only [retryDelay]
    nlinarith
  · simp only [retryDelay]
    nlinarith

/-- Witness for C1: a single in-flight request for "name", six
rate-limited responses, jitter 1/2 each time. -/
theorem processResult_rate_limited_five_retries_witness :
    (let s0 : FetchState := ⟨[], [⟨"p1", ["name"], 0⟩], [], [], []⟩
     let o1 := processResult s0 0 {} .OVER_QUERY_LIMIT (1 / 2)
     let o2 := processResult o1.state 0 {} .OVER_QUERY_LIMIT (1 / 2)
     let o3 := processResult o2.state 0 {} .OVER_QUERY_LIMIT (1 / 2)
     let o4 := processResult o3.state 0 {} .OVER_QUERY_LIMIT (1 / 2)
     let o5 := processResult o4.state 0 {} .OVER_QUERY_LIMIT (1 / 2)
     let o6 := processResult o5.state 0 {} .OVER_QUERY_LIMIT (1 / 2)
     o1.callbacks = [] ∧ o2.callbacks = [] ∧ o3.callbacks = [] ∧
     o4.callbacks = [] ∧ o5.callbacks = [] ∧ o6.callbacks = [] ∧
     o5.state.requestLog =
       [] ++ List.replicate 5 (⟨"p1", ["name"]⟩ : Request) ∧
     o6.state.requestLog =
       [] ++ List.replicate 5 (⟨"p1", ["name"]⟩ : Request) ∧
     o6.state.pending = [] ∧
     o6.state.placeIdsToDetails = [] ∧
     o6.state.delaysLog = [] ++ [retryDelay 0 (1 / 2), retryDelay 1 (1 / 2),
       retryDelay 2 (1 / 2), retryDelay 3 (1 / 2), retryDelay 4 (1 / 2)] ∧
     retryDelay 0 (1 / 2) = (2 ^ 0 + 1 / 2) * 500 ∧
     500 ≤ retryDelay 0 (1 / 2) ∧ retryDelay 0 (1 / 2) < 1000 ∧
     retryDelay 0 (1 / 2) ≤ retryDelay 1 (1 / 2) ∧
     retryDelay 1 (1 / 2) ≤ retryDelay 2 (1 / 2) ∧
     retryDelay 2 (1 / 2) ≤ retryDelay 3 (1 / 2) ∧
     retryDelay 3 (1 / 2) ≤ retryDelay 4 (1 / 2)) :=
  processResult_rate_limited_five_retries [] [] [] [] "p1" ["name"] {}
    (1 / 2) (1 / 2) (1 / 2) (1 / 2) (1 / 2) (1 / 2)
    (by norm_num) (by norm_num) (by norm_num) (by norm_num) (by norm_num)
    (by norm_num) (by norm_num) (by norm_num) (by norm_num) (by norm_num)

/-! ### Growth of the fetched-fields set (C4)

None of the attribute merges touches `fetchedFields`; the only writes to
it are the `Set` creations with `{"place_id"}` and the additions of
source lines 277-279. -/

@[simp] lemma applyName_fetchedFields (p : Place) (r : PlaceResult) :
    (applyName p r).fetchedFields = p.fetchedFields := by
  unfold applyName; split <;> rfl

@[simp] lemma applyGeometry_fetchedFields (p : Place) (r : PlaceResult) :
    (applyGeometry p r).fetchedFields = p.fetchedFields := by
  unfold applyGeometry; split <;> rfl

@[simp] lemma applyAddress_fetchedFields (p : Place) (r : PlaceResult) :
    (applyAddress p r).fetchedFields = p.fetchedFields := by
  unfold applyAddress; split <;> rfl

@[simp] lemma applyPhotos_fetchedFields (p : Place) (r : PlaceResult) :
    (applyPhotos p r).fetchedFields = p.fetchedFields := by
  unfold applyPhotos; split <;> rfl

@[simp] lemma applyTypes_fetchedFields (p : Place) (r : PlaceResult) :
    (applyTypes p r).fetchedFields = p.fetchedFields := by
  unfold applyTypes
  split
  · split <;> rfl
  · rfl

@[simp] lemma applyUrl_fetchedFields (p : Place) (r : PlaceResult) :
    (applyUrl p r).fetchedFields = p.fetchedFields := by
  unfold applyUrl; split <;> rfl

@[simp] lemma applyWebsite_fetchedFields (p : Place) (r : PlaceResult) :
    (applyWebsite p r).fetchedFields = p.fetchedFields := by
  unfold applyWebsite
  split
  · split <;> rfl
  · rfl

@[simp] lemma applyPhone_fetchedFields (p : Place) (r : PlaceResult) :
    (applyPhone p r).fetchedFields = p.fetchedFields := by
  unfold applyPhone; split <;> rfl

@[simp] lemma applyOpeningHours_fetchedFields (p : Place) (r : PlaceResult) :
    (applyOpeningHours p r).fetchedFields = p.fetchedFields := by
  unfold applyOpeningHours; split <;> rfl

@[simp] lemma applyRating_fetchedFields (p : Place) (r : PlaceResult) :
    (applyRating p r).fetchedFields = p.fetchedFields := by
  unfold applyRating; split <;> rfl

@[simp] lemma applyNumReviews_fetchedFields (p : Place) (r : PlaceResult) :
    (applyNumReviews p r).fetchedFields = p.fetchedFields := by
  unfold applyNumReviews; split <;> rfl

@[simp] lemma applyPriceLevel_fetchedFields (p : Place) (r : PlaceResult) :
    (applyPriceLevel p r).fetchedFields = p.fetchedFields := by
  unfold applyPriceLevel
  split
  · split <;> rfl
  · rfl

@[simp] lemma applyReviews_fetchedFields (p : Place) (r : PlaceResult) :
    (applyReviews p r).fetchedFields = p.fetchedFields := by
  unfold applyReviews; split <;> rfl

/-- The merge block never touches the fetched-fields set. -/
lemma mergeResult_fetchedFields (p : Place) (r : PlaceResult) :
    (mergeResult p r).fetchedFields = p.fetchedFields := by
  simp [mergeResult]

/-- Inserting a list of fields only grows a set. -/
lemma subset_foldl_insert (l : List String) (s : Finset String) :
    s ⊆ l.foldl (fun acc f => insert f acc) s := by
  induction l generalizing s with
  | nil => exact Finset.Subset.refl s
  | cons a l ih => exact (Finset.subset_insert a s).trans (ih (insert a s))

/-- A successful merge only grows the fetched-fields set. -/
lemma subset_mergeAndMark (p : Place) (missing : List String) (r : PlaceResult) :
    p.fetchedFields ⊆ (mergeAndMark p missing r).fetchedFields := by
  unfold mergeAndMark
  simp only [mergeResult_fetchedFields]
  exact subset_foldl_insert missing p.fetchedFields

/-- `Map.set` then `Map.get` of the same key. -/
lemma assocLookup_set_self {α : Type} (m : List (String × α)) (k : String)
    (v : α) : assocLookup (assocSet m k v) k = some v := by
  induction m with
  | nil => simp [assocSet, assocLookup]
  | cons kv rest ih =>
    obtain ⟨k1, w⟩ := kv
    by_cases h : k1 = k
    · simp [assocSet, assocLookup, h]
    · simp [assocSet, assocLookup, h, ih]

/-- `Map.set` leaves the values of other keys alone. -/
lemma assocLookup_set_other {α : Type} (m : List (String × α)) (k k' : String)
    (v : α) (h : k ≠ k') :
    assocLookup (assocSet m k v) k' = assocLookup m k' := by
  induction m with
  | nil => simp [assocSet, assocLookup, h]
  | cons kv rest ih =>
    obtain ⟨k1, w⟩ := kv
    by_cases h1 : k1 = k
    · subst h1
      simp [assocSet, assocLookup, h]
    · simp [assocSet, assocLookup, h1, ih]

/-- The success path only grows any place's fetched-fields set. -/
lemma fetchedOf_processOkCore_subset (s : FetchState) (pid' : String)
    (missing : List String) (r : PlaceResult) (pid : String) :
    fetchedOf s pid ⊆ fetchedOf (processOkCore s pid' missing r).state pid := by
  unfold processOkCore
  cases hl : assocLookup s.placeIdsToDetails pid' with
  | none => exact Finset.Subset.refl _
  | some place =>
    by_cases hpid : pid' = pid
    · subst hpid
      unfold fetchedOf
      simp only
      rw [assocLookup_set_self, hl]
      exact subset_mergeAndMark place missing r
    · unfold fetchedOf
      simp only
      rw [assocLookup_set_other _ _ _ _ hpid]

/-- A `fetchPlaceDetails` call only grows any place's fetched-fields
set. -/
lemma fetchedOf_call_subset (s : FetchState) (placeId : String)
    (fields : List String) (pid : String) :
    fetchedOf s pid ⊆ fetchedOf (fetchPlaceDetails s placeId fields).state pid := by
  unfold fetchPlaceDetails
  by_cases hpid0 : placeId = ""
  · rw [if_pos hpid0]
  rw [if_neg hpid0]
  cases hl : assocLookup s.placeIdsToDetails placeId with
  | some q =>
    simp only [hl]
    by_cases hempty : ((fields.filter (fun field =>
        decide (field ∉ (placeAtCall s placeId).fetchedFields))).isEmpty = true)
    · rw [if_pos hempty]
    · rw [if_neg hempty]
      cases hac : assocLookup s.placeIdsToAutocompleteResults placeId with
      | some r =>
        simp only [hac]
        exact fetchedOf_processOkCore_subset s placeId _ r pid
      | none =>
        simp only [hac]
        exact Finset.Subset.refl _
  | none =>
    simp only [hl]
    have hs1 : fetchedOf s pid ⊆ fetchedOf
        { s with placeIdsToDetails :=
            assocSet s.placeIdsToDetails placeId (placeAtCall s placeId) } pid := by
      by_cases hpid : placeId = pid
      · subst hpid
        unfold fetchedOf
        simp only [hl]
        exact Finset.empty_subset _
      · unfold fetchedOf
        simp only
        rw [assocLookup_set_other _ _ _ _ hpid]
    by_cases hempty : ((fields.filter (fun field =>
        decide (field ∉ (placeAtCall s placeId).fetchedFields))).isEmpty = true)
    · rw [if_pos hempty]
      exact hs1
    · rw [if_neg hempty]
      cases hac : assocLookup s.placeIdsToAutocompleteResults placeId with
      | some r =>
        simp only [hac]
        exact hs1.trans (fetchedOf_processOkCore_subset _ placeId _ r pid)
      | none =>
        simp only [hac]
        exact hs1

/-- A service response only grows any place's fetched-fields set. -/
lemma fetchedOf_respond_subset (s : FetchState) (i : ℕ) (result : PlaceResult)
    (status : PlacesServiceStatus) (jitter : ℚ) (pid : String) :
    fetchedOf s pid ⊆
      fetchedOf (processResult s i result status jitter).state pid := by
  cases hp : s.pending.get? i with
  | none =>
    simp only [processResult, hp]
    exact Finset.Subset.refl _
  | some pr =>
    cases status with
    | OK =>
      simp only [processResult, hp]
      exact fetchedOf_processOkCore_subset
        { s with pending := s.pending.eraseIdx i } pr.placeId pr.missingFields
        result pid
    | OVER_QUERY_LIMIT =>
      simp only [processResult, hp]
      by_cases hlt : pr.retryCount < 5
      · rw [if_pos hlt]
        exact Finset.Subset.refl _
      · rw [if_neg hlt]
        exact Finset.Subset.refl _
    | otherFailure code =>
      simp only [processResult, hp]
      exact Finset.Subset.refl _

/-- One event only grows any place's fetched-fields set. -/
lemma fetchedOf_step_subset (s : FetchState) (e : Event) (pid : String) :
    fetchedOf s pid ⊆ fetchedOf (step s e).state pid := by
  cases e with
  | call placeId fields => exact fetchedOf_call_subset s placeId fields pid
  | respond i result status jitter =>
    exact fetchedOf_respond_subset s i result status jitter pid

/-- Any event sequence only grows any place's fetched-fields set. -/
lemma fetchedOf_runEvents_subset (events : List Event) (s : FetchState)
    (pid : String) :
    fetchedOf s pid ⊆ fetchedOf (runEvents s events) pid := by
  induction events generalizing s with
  | nil => exact Finset.Subset.refl _
  | cons e es ih =>
    exact (fetchedOf_step_subset s e pid).trans (ih (step s e).state)

/-- The request log of a `fetchPlaceDetails` call either stays put or
gains exactly the one request holding the freshly computed missing
subset. -/
lemma fetchPlaceDetails_requestLog_cases (s : FetchState) (placeId : String)
    (fields : List String) :
    (fetchPlaceDetails s placeId fields).state.requestLog = s.requestLog ∨
    (fetchPlaceDetails s placeId fields).state.requestLog =
      s.requestLog ++ [⟨placeId, fields.filter
        (fun field => decide (field ∉ (placeAtCall s placeId).fetchedFields))⟩] := by
  unfold fetchPlaceDetails
  by_cases hpid0 : placeId = ""
  · rw [if_pos hpid0]
    exact Or.inl rfl
  rw [if_neg hpid0]
  cases hl : assocLookup s.placeIdsToDetails placeId with
  | some q =>
    simp only [hl]
    by_cases hempty : ((fields.filter (fun field =>
        decide (field ∉ (placeAtCall s placeId).fetchedFields))).isEmpty = true)
    · rw [if_pos hempty]
      exact Or.inl rfl
    · rw [if_neg hempty]
      cases hac : assocLookup s.placeIdsToAutocompleteResults placeId with
      | some r =>
        simp only [hac]
        exact Or.inl (processOkCore_requestLog _ _ _ _)
      | none =>
        simp [hac]
  | none =>
    simp only [hl]
    by_cases hempty : ((fields.filter (fun field =>
        decide (field ∉ (placeAtCall s placeId).fetchedFields))).isEmpty = true)
    · rw [if_pos hempty]
      exact Or.inl rfl
    · rw [if_neg hempty]
      cases hac : assocLookup s.placeIdsToAutocompleteResults placeId with
      | some r =>
        simp only [hac]
        exact Or.inl (processOkCore_requestLog _ _ _ _)
      | none =>
        simp [hac]

/-- C4 (amended): over any sequence of `fetchPlaceDetails` calls and
service responses a cached place's fetched-fields set only grows (no
operation removes an element), and every request that a
`fetchPlaceDetails` call itself issues to the service carries only fields
outside the place's fetched-fields set at the time of the call; a
rate-limited in-flight request, however, re-issues its originally
captured field list verbatim when it retries (third conjunct), which is
why fields already fetched in the meantime can reappear in a later
request — see the accompanying counterexample. -/
theorem fetchedFields_grow_and_fresh_requests_miss (s : FetchState)
    (events : List Event) (pid : String) :
    fetchedOf s pid ⊆ fetchedOf (runEvents s events) pid ∧
    (∀ (placeId : String) (fields : List String) (req : Request),
      req ∈ ((fetchPlaceDetails s placeId fields).state.requestLog.drop
        s.requestLog.length) →
      ∀ f ∈ req.fields, f ∉ (placeAtCall s placeId).fetchedFields) ∧
    (∀ (i : ℕ) (result : PlaceResult) (jitter : ℚ) (pr : Pending),
      s.pending.get? i = some pr → pr.retryCount < 5 →
      (processResult s i result .OVER_QUERY_LIMIT jitter).state.requestLog =
        s.requestLog ++ [⟨pr.placeId, pr.missingFields⟩]) := by
  refine ⟨fetchedOf_runEvents_subset events s pid, ?_, ?_⟩
  · intro placeId fields req hreq f hf
    rcases fetchPlaceDetails_requestLog_cases s placeId fields with hcase | hcase
    · rw [hcase, List.drop_length] at hreq
      exact absurd hreq (List.not_mem_nil req)
    · rw [hcase, List.drop_left] at hreq
      have hreqeq := List.mem_singleton.1 hreq
      subst hreqeq
      have hmem := List.mem_filter.1 hf
      simpa using hmem.2
  · intro i result jitter pr hp hlt
    simp only [processResult, hp]
    rw [if_pos hlt]

/-- Witness for C4's amended statement: growth along one event, a fresh
request that avoids the already fetched "place_id", and a retry
re-issuing its captured field list. -/
theorem fetchedFields_grow_and_fresh_requests_miss_witness :
    (fetchedOf ⟨[("p1", freshPlace "p1")], [⟨"p1", ["name"], 0⟩], [], [], []⟩ "p1" ⊆
      fetchedOf (runEvents ⟨[("p1", freshPlace "p1")], [⟨"p1", ["name"], 0⟩], [], [], []⟩
        [Event.call "p1" ["name"]]) "p1") ∧
    "name" ∉ (placeAtCall
      ⟨[("p1", freshPlace "p1")], [⟨"p1", ["name"], 0⟩], [], [], []⟩ "p1").fetchedFields ∧
    (processResult ⟨[("p1", freshPlace "p1")], [⟨"p1", ["name"], 0⟩], [], [], []⟩
        0 {} .OVER_QUERY_LIMIT 0).state.requestLog =
      [] ++ [(⟨"p1", ["name"]⟩ : Request)] :=
  ⟨(fetchedFields_grow_and_fresh_requests_miss
      ⟨[("p1", freshPlace "p1")], [⟨"p1", ["name"], 0⟩], [], [], []⟩
      [Event.call "p1" ["name"]] "p1").1,
   (fetchedFields_grow_and_fresh_requests_miss
      ⟨[("p1", freshPlace "p1")], [⟨"p1", ["name"], 0⟩], [], [], []⟩ [] "p1").2.1
      "p1" ["name", "place_id"] ⟨"p1", ["name"]⟩ (by decide) "name" (by decide),
   (fetchedFields_grow_and_fresh_requests_miss
      ⟨[("p1", freshPlace "p1")], [⟨"p1", ["name"], 0⟩], [], [], []⟩ [] "p1").2.2
      0 {} 0 ⟨"p1", ["name"], 0⟩ rfl (by decide)⟩

/-- Counterexample to C4 as stated: two overlapping calls for the same
field, the second one's response succeeds (adding "name" to the
fetched-fields set), then the first one's rate-limited response retries —
the retry issues a request to the service that contains "name", a field
that entered the fetched-fields set beforehand. -/
theorem fetched_field_rerequested_counterexample :
    (let result : PlaceResult := { name := some "X" }
     let s0 : FetchState := ⟨[], [], [], [], []⟩
     let s1 := (step s0 (.call "p1" ["name"])).state
     let s2 := (step s1 (.call "p1" ["name"])).state
     let s3 := (step s2 (.respond 1 result .OK 0)).state
     let s4 := (step s3 (.respond 0 result .OVER_QUERY_LIMIT 0)).state
     "name" ∈ fetchedOf s3 "p1" ∧
     s3.requestLog = [⟨"p1", ["name"]⟩, ⟨"p1", ["name"]⟩] ∧
     s4.requestLog = s3.requestLog ++ [⟨"p1", ["name"]⟩] ∧
     "name" ∈ (⟨"p1", ["name"]⟩ : Request).fields) := by
  decide
